import Mathlib

/-!
Verification of the self-mcp server (src/index.ts, v2.1.0): CLI argument
parsing into a parameter-definition list (`parseArgs`), schema generation
(`buildToolSchema`), and the call-tool handler.

Strings are modelled as lists of characters (`Str`); the JavaScript string
operations used by the source (`split`, `join`, `trim`, `toLowerCase`) are
embedded below with JavaScript semantics. `toLowerCase` is modelled on the
ASCII range, which is exact for every comparison the source performs (all
compared literals are ASCII). Diagnostics are modelled by the first
`console.error` line of each failure branch; `process.exit(n)` becomes the
`ParseResult.exit n msg` outcome. The file system (`fs.readFileSync`) is
modelled as a partial map from path to content, `none` meaning the read
throws.
-/

/-- Strings as character lists (JavaScript strings). -/
abbrev Str := List Char

/-- JavaScript `String.prototype.split` with a one-character separator:
`"".split(c)` is `[""]`, separators at the ends produce empty segments. -/
def jsSplit (c : Char) : Str → List Str
  | [] => [[]]
  | x :: xs =>
    if x = c then [] :: jsSplit c xs
    else
      match jsSplit c xs with
      | [] => [[x]]
      | h :: t => (x :: h) :: t

/-- JavaScript `Array.prototype.join` with a string separator:
`[].join(s)` is `""`. -/
def joinSep (sep : Str) : List Str → Str
  | [] => []
  | [s] => s
  | s :: rest => s ++ sep ++ joinSep sep rest

/-- The whitespace class removed by JavaScript `String.prototype.trim`
(WhiteSpace plus LineTerminator code points). -/
def isJsWhitespace (c : Char) : Bool :=
  c = ' ' ∨ c = '\t' ∨ c = '\n' ∨ c = '\r' ∨ c = '\x0b' ∨ c = '\x0c' ∨
  c = ' ' ∨ c = ' ' ∨ (' ' ≤ c ∧ c ≤ ' ') ∨
  c = ' ' ∨ c = ' ' ∨ c = ' ' ∨ c = ' ' ∨
  c = '　' ∨ c = '﻿'

/-- JavaScript `String.prototype.trim`: strip `isJsWhitespace` characters
from both ends. -/
def jsTrim (s : Str) : Str :=
  ((s.dropWhile isJsWhitespace).reverse.dropWhile isJsWhitespace).reverse

/-- JavaScript `String.prototype.toLowerCase`, restricted to the ASCII
range (exact for every comparison made by the source). -/
def jsToLower (s : Str) : Str :=
  s.map Char.toLower

/-- The four parameter types of the source union
`"string" | "number" | "array" | "any"`. -/
inductive PType where
  | string
  | number
  | array
  | any
deriving DecidableEq

/-- JSON-schema text of a parameter type (the value stored in the
`type` field of a generated property descriptor). -/
def typeName : PType → Str
  | .string => "string".data
  | .number => "number".data
  | .array => "array".data
  | .any => "any".data

/-- Source: `validTypes = ["string", "number", "array", "any"]` together
with the cast to the union type; `none` means the token is not a valid
type name. -/
def ptypeOfName (s : Str) : Option PType :=
  if s = "string".data then some .string
  else if s = "number".data then some .number
  else if s = "array".data then some .array
  else if s = "any".data then some .any
  else none

/-- One property of the item schema carried by the `attention_heads`
default parameter (`{ type, description }`). -/
structure LeafProp where
  type : Str
  description : Str
deriving DecidableEq

/-- Shape of the `items` JSON-schema literal attached to the
`attention_heads` default parameter (the only `items` value the program
ever constructs; the parser never sets `items`). -/
structure ItemsSchema where
  type : Str
  properties : List (Str × LeafProp)
  required : List Str
deriving DecidableEq

/-- Source interface `ParamDef`. -/
structure ParamDef where
  name : Str
  type : PType
  description : Str
  minimum : Option Int
  maximum : Option Int
  items : Option ItemsSchema
  required : Bool
deriving DecidableEq

/-- The `items` literal of the `attention_heads` default parameter. -/
def attentionHeadsItems : ItemsSchema :=
  { type := "object".data
    properties :=
      [("name".data,
        ⟨"string".data,
         "Name of this attention head (e.g., empathy_head, safety_head, truth_head)".data⟩),
       ("query".data,
        ⟨"string".data, "What this head is attending to".data⟩)]
    required := ["name".data, "query".data] }

/-- Source constant `DEFAULT_PARAMS`. -/
def DEFAULT_PARAMS : List ParamDef :=
  [⟨"prompt".data, .string, "The self-prompt or cognitive instruction".data,
    none, none, none, true⟩,
   ⟨"temperature".data, .number, "Cognitive temperature".data,
    some 0, some 2, none, false⟩,
   ⟨"thinking_style".data, .string, "Thinking approach".data,
    none, none, none, false⟩,
   ⟨"archetype".data, .string, "Cognitive archetype".data,
    none, none, none, false⟩,
   ⟨"strategy".data, .string, "Problem-solving strategy".data,
    none, none, none, false⟩,
   ⟨"scope".data, .string, "Cognitive zoom level".data,
    none, none, none, false⟩,
   ⟨"depth".data, .string, "Thoroughness and time investment".data,
    none, none, none, false⟩,
   ⟨"extra".data, .string, "Additional context or focus".data,
    none, none, none, false⟩,
   ⟨"attention_heads".data, .array,
    ("Parallel attention streams for simultaneously attending to multiple aspects. Each head focuses on a specific concern or dimension. Example: [\x7b name: \x27empathy_head\x27, query: \x27signs of frustration or confusion\x27 \x7d, \x7b name: \x27truth_head\x27, query: \x27false assumptions needing correction\x27 \x7d]").data,
    none, none, some attentionHeadsItems, false⟩]

/-- Which directive set the tool-description override
(the source's `toolDescriptionSource` global: `"--tool-description"`,
`"--tool-description-file"`, or `null`). -/
inductive DescSource where
  | inline
  | file
deriving DecidableEq

/-- Mutable state read and written by `parseArgs`: the parameter list
being built plus the two description-override globals. -/
structure ParseSt where
  params : List ParamDef
  customToolDescription : Option Str
  toolDescriptionSource : Option DescSource
deriving DecidableEq

/-- Outcome of the parsing pass: the final state, or `process.exit code`
with the first diagnostic line (empty for `--help`). -/
inductive ParseResult where
  | ok (st : ParseSt)
  | exit (code : Nat) (msg : Str)
deriving DecidableEq

/-- The file system seen by `--tool-description-file`: path to contents,
`none` when `fs.readFileSync` throws. -/
abbrev FS := Str → Option Str

/-- A file system with no readable files. -/
def fsEmpty : FS := fun _ => none

/-- Diagnostic lines (first `console.error` line of each failure branch). -/
def msgInvalidFormat (spec : Str) : Str :=
  "ERROR: Invalid --add-param format: \x27".data ++ spec ++ "\x27".data

/-- Diagnostic for an empty parameter name in `--add-param`. -/
def msgEmptyName (spec : Str) : Str :=
  "ERROR: Parameter name cannot be empty in --add-param \x27".data ++ spec ++ "\x27".data

/-- Diagnostic for an invalid type token in `--add-param`. -/
def msgInvalidType (ty spec : Str) : Str :=
  "ERROR: Invalid type \x27".data ++ ty ++ "\x27 in --add-param \x27".data ++ spec ++ "\x27".data

/-- Diagnostic for a duplicate parameter name in `--add-param`. -/
def msgDuplicate (name : Str) : Str :=
  "ERROR: Parameter \x27".data ++ name ++ "\x27 already exists".data

/-- Diagnostic for an empty description in `--add-param`. -/
def msgEmptyDescription (spec : Str) : Str :=
  "ERROR: Parameter description cannot be empty in --add-param \x27".data ++ spec ++ "\x27".data

/-- Diagnostic for unknown names in `--required` / `--optional`
(`flag` is the directive's own token). -/
def msgUnknownNames (flag : Str) (invalidNames : List Str) : Str :=
  "ERROR: Unknown parameter names in ".data ++ flag ++ ": ".data ++
    joinSep ", ".data invalidNames

/-- Diagnostic for an unrecognized flag. -/
def msgUnknownArgument (arg : Str) : Str :=
  "ERROR: Unknown argument: ".data ++ arg

/-- Source lines 200-261: parse one `--add-param` spec against the current
parameter list, producing the new `ParamDef` or the first diagnostic line.
Mirrors the source's check order: segment count, empty name, invalid type,
duplicate name, empty reconstructed description. -/
def parseAddParam (params : List ParamDef) (spec : Str) : Except Str ParamDef :=
  match jsSplit ':' spec with
  | p0 :: p1 :: p2 :: prest =>
    let name := jsTrim p0
    let type := jsTrim p1
    if name = [] then .error (msgEmptyName spec)
    else
      match ptypeOfName (jsToLower type) with
      | none => .error (msgInvalidType type spec)
      | some ty =>
        if (params.map (fun p => p.name)).contains name then
          .error (msgDuplicate name)
        else
          let lastPart := jsToLower (jsTrim ((p2 :: prest).getLastD []))
          let hasRequiredSuffix :=
            lastPart = "required".data ∨ lastPart = "optional".data
          let descriptionParts :=
            if hasRequiredSuffix then (p2 :: prest).dropLast else p2 :: prest
          let description := jsTrim (joinSep ":".data descriptionParts)
          if description = [] then .error (msgEmptyDescription spec)
          else
            let isRequired :=
              if hasRequiredSuffix then lastPart = "required".data else false
            .ok ⟨name, ty, description, none, none, none, isRequired⟩
  | _ => .error (msgInvalidFormat spec)

/-- Source lines 174-199: `--required` / `--optional` with value `next`:
split on commas, trim, reject unknown names, else set `required := b` on
the named entries. `flag` is only used in the diagnostic. -/
def setReqNames (b : Bool) (flag : Str) (params : List ParamDef) (next : Str) :
    Except Str (List ParamDef) :=
  let names := (jsSplit ',' next).map jsTrim
  let existingNames := params.map (fun p => p.name)
  let invalidNames := names.filter (fun n => !(existingNames.contains n))
  if invalidNames = [] then
    .ok (params.map (fun p =>
      if names.contains p.name then { p with required := b } else p))
  else
    .error (msgUnknownNames flag invalidNames)

/-- Source lines 262-281: `--tool-description` with value `next`. -/
def applyToolDescription (st : ParseSt) (next : Str) : Except Str ParseSt :=
  match st.toolDescriptionSource with
  | some src =>
    .error (if src = .inline then
        "ERROR: --tool-description can only be used once".data
      else
        "ERROR: Cannot use both --tool-description and --tool-description-file".data)
  | none =>
    let description := jsTrim next
    if description = [] then
      .error "ERROR: Tool description cannot be empty".data
    else
      .ok { st with customToolDescription := some description
                    toolDescriptionSource := some .inline }

/-- Source lines 282-308: `--tool-description-file` with value `next`
(a path resolved against the modelled file system). -/
def applyToolDescriptionFile (fs : FS) (st : ParseSt) (next : Str) :
    Except Str ParseSt :=
  match st.toolDescriptionSource with
  | some src =>
    .error (if src = .file then
        "ERROR: --tool-description-file can only be used once".data
      else
        "ERROR: Cannot use both --tool-description and --tool-description-file".data)
  | none =>
    match fs next with
    | none =>
      .error ("ERROR: Failed to read tool description file \x27".data ++
        next ++ "\x27".data)
    | some content =>
      let description := jsTrim content
      if description = [] then
        .error ("ERROR: Tool description file \x27".data ++ next ++
          "\x27 is empty".data)
      else
        .ok { st with customToolDescription := some description
                      toolDescriptionSource := some .file }

/-- The five directives that consume the following argv token
(guarded in the source by `args[i + 1]` truthiness). -/
def isValueFlag (arg : Str) : Bool :=
  arg = "--required".data ∨ arg = "--optional".data ∨ arg = "--add-param".data ∨
  arg = "--tool-description".data ∨ arg = "--tool-description-file".data

/-- Dispatch a value-consuming directive `arg` on its value token `next`
(only called under `isValueFlag arg`). -/
def applyValueFlag (fs : FS) (st : ParseSt) (arg next : Str) :
    Except Str ParseSt :=
  if arg = "--required".data then
    (setReqNames true arg st.params next).map
      (fun ps => { st with params := ps })
  else if arg = "--optional".data then
    (setReqNames false arg st.params next).map
      (fun ps => { st with params := ps })
  else if arg = "--add-param".data then
    (parseAddParam st.params next).map
      (fun pd => { st with params := st.params ++ [pd] })
  else if arg = "--tool-description".data then
    applyToolDescription st next
  else
    applyToolDescriptionFile fs st next

/-- Does the token start with a dash? (`arg.startsWith("--") ||
arg.startsWith("-")` collapses to a single leading-dash test.) -/
def isDashArg : Str → Bool
  | '-' :: _ => true
  | _ => false

/-- Result of processing one token that does not consume a value. -/
inductive SimpleStep where
  | next (st : ParseSt)
  | exit (code : Nat) (msg : Str)

/-- Process one non-value-consuming token: `--all-required`,
`--all-optional`, `--help` / `-h`, the unknown-flag branch, or the silent
skip of tokens without a leading dash. -/
def handleSimple (st : ParseSt) (arg : Str) : SimpleStep :=
  if arg = "--all-required".data then
    .next { st with params := st.params.map (fun p => { p with required := true }) }
  else if arg = "--all-optional".data then
    .next { st with params := st.params.map (fun p => { p with required := false }) }
  else if arg = "--help".data ∨ arg = "-h".data then
    .exit 0 []
  else if isDashArg arg then
    .exit 1 (msgUnknownArgument arg)
  else
    .next st

/-- Source lines 161-346: the `parseArgs` token loop, from state `st` over
the remaining argv tokens. A directive `arg` consumes the next token
`next` exactly when `isValueFlag arg` and `next` is truthy (non-empty);
otherwise the token is handled by `handleSimple`. -/
def parseArgsFrom (fs : FS) (st : ParseSt) : List Str → ParseResult
  | [] => .ok st
  | [arg] =>
    match handleSimple st arg with
    | .next st' => .ok st'
    | .exit c m => .exit c m
  | arg :: next :: rest =>
    if next ≠ [] ∧ isValueFlag arg then
      match applyValueFlag fs st arg next with
      | .ok st' => parseArgsFrom fs st' rest
      | .error m => .exit 1 m
    else
      match handleSimple st arg with
      | .next st' => parseArgsFrom fs st' (next :: rest)
      | .exit c m => .exit c m

/-- The initial state: `DEFAULT_PARAMS` copied into `params`, both
tool-description globals `null`. -/
def initSt : ParseSt := ⟨DEFAULT_PARAMS, none, none⟩

/-- Source `parseArgs()`: run the token loop from the initial state over
`argv` (already sliced past the node binary and script path). -/
def parseArgs (fs : FS) (argv : List Str) : ParseResult :=
  parseArgsFrom fs initSt argv

/-- A generated property descriptor (source `propDef`): `description`
always present; `type` absent for "any"; `minimum` / `maximum` only for
"number" entries that set them; `items` only for "array" entries that set
it. -/
structure PropDef where
  description : Str
  type : Option Str
  minimum : Option Int
  maximum : Option Int
  items : Option ItemsSchema
deriving DecidableEq

/-- Source lines 370-390 (the per-parameter body of `buildToolSchema`):
build one property descriptor. -/
def mkPropDef (p : ParamDef) : PropDef :=
  { description := p.description
    type := if p.type = PType.any then none else some (typeName p.type)
    minimum := if p.type = PType.number then p.minimum else none
    maximum := if p.type = PType.number then p.maximum else none
    items := if p.type = PType.array then p.items else none }

/-- The schema object returned by `buildToolSchema`:
`{ type: "object", properties, required }` with insertion-ordered
properties. -/
structure ToolSchema where
  type : Str
  properties : List (Str × PropDef)
  required : List Str
deriving DecidableEq

/-- Source lines 366-402: `buildToolSchema` over the frozen parameter
list: a property per parameter (in order) and the names of the required
parameters (in order). -/
def buildToolSchema (paramDefs : List ParamDef) : ToolSchema :=
  { type := "object".data
    properties := paramDefs.map (fun p => (p.name, mkPropDef p))
    required := (paramDefs.filter (fun p => p.required)).map (fun p => p.name) }

/-- JSON values, used only as the (never inspected) arguments of a
call-tool request. -/
inductive Json where
  | null
  | bool (b : Bool)
  | num (n : Int)
  | str (s : Str)
  | arr (xs : List Json)
  | obj (fields : List (Str × Json))

/-- One item of a call-tool result's `content` array. -/
structure ContentItem where
  type : Str
  text : Str
deriving DecidableEq

/-- A call-tool success result. -/
structure CallToolResult where
  content : List ContentItem
deriving DecidableEq

/-- Source lines 423-440: the `CallToolRequestSchema` handler. Any name
other than "Self" throws `Unknown tool: <name>`; otherwise the constant
result with a single empty text item. The request's arguments are never
read. -/
def handleCallTool (name : Str) (_arguments : Option Json) :
    Except Str CallToolResult :=
  if name ≠ "Self".data then
    .error ("Unknown tool: ".data ++ name)
  else
    .ok ⟨[⟨"text".data, []⟩]⟩

deriving instance DecidableEq for Except

set_option maxRecDepth 8000

theorem jsSplit_ne_nil (c : Char) (s : Str) : jsSplit c s ≠ [] := by
  induction s with
  | nil => simp [jsSplit]
  | cons x xs ih =>
    simp only [jsSplit]
    split
    · simp
    · split
      · simp
      · simp

theorem jsSplit_not_mem (c : Char) (s : Str) (h : c ∉ s) : jsSplit c s = [s] := by
  induction s with
  | nil => rfl
  | cons x xs ih =>
    have hx : ¬ x = c := fun hh => h (by simp [hh])
    have hxs : c ∉ xs := fun hh => h (List.mem_cons_of_mem _ hh)
    simp only [jsSplit, if_neg hx, ih hxs]

theorem jsSplit_append (c : Char) (a b : Str) :
    jsSplit c (a ++ c :: b) = jsSplit c a ++ jsSplit c b := by
  induction a with
  | nil => simp [jsSplit]
  | cons x xs ih =>
    by_cases hx : x = c
    · subst hx
      simp [jsSplit, ih]
    · obtain ⟨h, t, hht⟩ := List.exists_cons_of_ne_nil (jsSplit_ne_nil c xs)
      simp [jsSplit, if_neg hx, ih, hht]

theorem joinSep_cons_head (sep : Str) (x : Char) (h : Str) (t : List Str) :
    joinSep sep ((x :: h) :: t) = x :: joinSep sep (h :: t) := by
  cases t <;> simp [joinSep]

theorem joinSep_jsSplit (c : Char) (s : Str) : joinSep [c] (jsSplit c s) = s := by
  induction s with
  | nil => rfl
  | cons x xs ih =>
    obtain ⟨h, t, hht⟩ := List.exists_cons_of_ne_nil (jsSplit_ne_nil c xs)
    by_cases hx : x = c
    · subst hx
      simp only [jsSplit, if_pos rfl, hht]
      simp only [joinSep, hht ▸ ih]
      simp
    · have ih2 : joinSep [c] (h :: t) = xs := by rw [← hht]; exact ih
      simp only [jsSplit, if_neg hx, hht, joinSep_cons_head, ih2]

theorem jsSplit_spec_parts (name kind desc req : Str)
    (hnc : ':' ∉ name) (hkc : ':' ∉ kind) (hrc : ':' ∉ req) :
    jsSplit ':' (name ++ ':' :: (kind ++ ':' :: (desc ++ ':' :: req))) =
      name :: kind :: (jsSplit ':' desc ++ [req]) := by
  rw [jsSplit_append, jsSplit_not_mem _ _ hnc, jsSplit_append,
    jsSplit_not_mem _ _ hkc, jsSplit_append, jsSplit_not_mem _ _ hrc]
  simp

/-- C1. For every valid add-parameter spec assembled as
`name:kind:<description>:required` where the description may contain any
number of colons, the parser rejoins the middle segments with colons and
recovers the description verbatim — every colon of the original
description text is preserved — and appends the entry with the requested
kind and `required = true`. In particular, parsing
`"url:string:Base URL: https://example.com:required"` against the default
set appends an entry with name `url`, kind string, description
`Base URL: https://example.com`, and `required = true`. -/
theorem addParam_description_colons_preserved
    (params : List ParamDef) (name kind desc : Str) (ty : PType)
    (hnc : ':' ∉ name) (hkc : ':' ∉ kind)
    (hnt : jsTrim name = name) (hne : name ≠ [])
    (hdup : (params.map (fun p => p.name)).contains name = false)
    (hty : ptypeOfName (jsToLower (jsTrim kind)) = some ty)
    (hdt : jsTrim desc = desc) (hde : desc ≠ []) :
    parseAddParam params (name ++ ':' :: (kind ++ ':' :: (desc ++ ':' :: "required".data))) =
        .ok ⟨name, ty, desc, none, none, none, true⟩ ∧
      parseArgs fsEmpty
          ["--add-param".data, "url:string:Base URL: https://example.com:required".data] =
        .ok ⟨DEFAULT_PARAMS ++
          [⟨"url".data, .string, "Base URL: https://example.com".data,
            none, none, none, true⟩], none, none⟩ := by
  constructor
  · have hreq : (':' : Char) ∉ "required".data := by decide
    have hparts := jsSplit_spec_parts name kind desc "required".data hnc hkc hreq
    obtain ⟨d0, dt, hd⟩ := List.exists_cons_of_ne_nil (jsSplit_ne_nil ':' desc)
    rw [hd] at hparts
    simp only [List.cons_append] at hparts
    have hjoin1 : jsTrim (joinSep ":".data (d0 :: dt)) = desc := by
      have h5 : joinSep [':'] (jsSplit ':' desc) = desc := joinSep_jsSplit ':' desc
      rw [hd] at h5
      show jsTrim (joinSep [':'] (d0 :: dt)) = desc
      rw [h5, hdt]
    have hjoin2 : jsTrim (joinSep [':'] (d0 :: dt)) = desc := hjoin1
    have hgl : (d0 :: (dt ++ ["required".data])).getLastD [] = "required".data := by
      rw [← List.cons_append]
      exact List.getLastD_concat _ _ _
    have hdrop : (d0 :: (dt ++ ["required".data])).dropLast = d0 :: dt := by
      rw [← List.cons_append]
      exact List.dropLast_concat
    have hlast : jsToLower (jsTrim "required".data) = "required".data := by decide
    simp only [parseAddParam]
    rw [hparts]
    dsimp only
    rw [hnt, if_neg hne, hty]
    dsimp only
    rw [hdup]
    simp only [Bool.false_eq_true, if_false]
    rw [hgl, hlast]
    simp [hjoin1, hjoin2, hde, hdrop]
  · decide

theorem addParam_description_colons_preserved_witness :
    parseAddParam [] "a:string:x: y:required".data =
      .ok ⟨"a".data, PType.string, "x: y".data, none, none, none, true⟩ :=
  (addParam_description_colons_preserved [] "a".data "string".data "x: y".data
    PType.string (by decide) (by decide) (by decide) (by decide) (by decide)
    (by decide) (by decide) (by decide)).1

/-- C2 (counterexample): the final parameter-definition sequence is not
invariant under reordering of directives. `--all-required --optional
prompt` and `--optional prompt --all-required` are permutations of each
other, keep the value token `prompt` adjacent to its directive
`--optional`, and are both accepted, yet the first leaves `prompt`
optional while the second ends with every parameter required. -/
theorem parseArgs_reorder_changes_result :
    List.Perm ["--all-required".data, "--optional".data, "prompt".data]
      ["--optional".data, "prompt".data, "--all-required".data] ∧
    parseArgs fsEmpty ["--all-required".data, "--optional".data, "prompt".data] =
      .ok ⟨DEFAULT_PARAMS.map (fun p =>
        if p.name = "prompt".data then { p with required := false }
        else { p with required := true }), none, none⟩ ∧
    parseArgs fsEmpty ["--optional".data, "prompt".data, "--all-required".data] =
      .ok ⟨DEFAULT_PARAMS.map (fun p => { p with required := true }), none, none⟩ ∧
    DEFAULT_PARAMS.map (fun p =>
        if p.name = "prompt".data then { p with required := false }
        else { p with required := true }) ≠
      DEFAULT_PARAMS.map (fun p => { p with required := true }) :=
  ⟨by decide, by decide, by decide, by decide⟩

/-- C2 (amended): directive application does not commute. There exist
argv sequences that are reorderings of each other (each value-consuming
directive kept adjacent to its value token), both accepted without a
fatal error, whose final parameter-definition sequences differ. -/
theorem parseArgs_directive_order_dependent :
    ∃ (a1 a2 : List Str) (s1 s2 : ParseSt),
      a1.Perm a2 ∧
      parseArgs fsEmpty a1 = .ok s1 ∧ parseArgs fsEmpty a2 = .ok s2 ∧
      s1.params ≠ s2.params :=
  ⟨["--all-required".data, "--optional".data, "prompt".data],
   ["--optional".data, "prompt".data, "--all-required".data],
   ⟨DEFAULT_PARAMS.map (fun p =>
      if p.name = "prompt".data then { p with required := false }
      else { p with required := true }), none, none⟩,
   ⟨DEFAULT_PARAMS.map (fun p => { p with required := true }), none, none⟩,
   by decide, by decide, by decide, by decide⟩

theorem parseAddParam_invalid_type (params : List ParamDef) (spec : Str)
    (hty : ptypeOfName (jsToLower (jsTrim ((jsSplit ':' spec).getD 1 []))) = none) :
    ∃ msg, parseAddParam params spec = .error msg := by
  rcases hp : jsSplit ':' spec with _ | ⟨p0, _ | ⟨p1, _ | ⟨p2, prest⟩⟩⟩
  · exact ⟨msgInvalidFormat spec, by simp only [parseAddParam, hp]⟩
  · exact ⟨msgInvalidFormat spec, by simp only [parseAddParam, hp]⟩
  · exact ⟨msgInvalidFormat spec, by simp only [parseAddParam, hp]⟩
  · have hty1 : ptypeOfName (jsToLower (jsTrim p1)) = none := by
      simpa [hp] using hty
    by_cases h0 : jsTrim p0 = []
    · exact ⟨msgEmptyName spec, by
        simp only [parseAddParam, hp]
        rw [if_pos h0]⟩
    · exact ⟨msgInvalidType (jsTrim p1) spec, by
        simp only [parseAddParam, hp]
        rw [if_neg h0, hty1]⟩

/-- C3. For every `--add-param` spec whose type segment — trimmed and
lowercased, exactly as the source normalizes it — is not one of the four
recognized kind names, the parser exits with status 1 (after a
diagnostic) and never appends an entry with a defaulted kind: the
`.exit 1` outcome carries no parameter list at all. -/
theorem addParam_invalid_type_fatal (fs : FS) (st : ParseSt) (spec : Str)
    (rest : List Str) (hspec : spec ≠ [])
    (hty : ptypeOfName (jsToLower (jsTrim ((jsSplit ':' spec).getD 1 []))) = none) :
    ∃ msg, parseArgsFrom fs st ("--add-param".data :: spec :: rest) = .exit 1 msg := by
  obtain ⟨m, hm⟩ := parseAddParam_invalid_type st.params spec hty
  refine ⟨m, ?_⟩
  simp only [parseArgsFrom]
  rw [if_pos ⟨hspec, by decide⟩]
  simp only [applyValueFlag]
  rw [if_neg (by decide), if_neg (by decide)]
  simp only [if_true]
  rw [hm]
  rfl

theorem addParam_invalid_type_fatal_witness :
    ∃ msg, parseArgs fsEmpty ["--add-param".data, "a:strings:desc".data] =
      .exit 1 msg :=
  addParam_invalid_type_fatal fsEmpty initSt "a:strings:desc".data []
    (by decide) (by decide)

/-- C4. The call-tool handler returns the constant success result — a
single text content item whose text is empty — for the known tool "Self"
whatever the arguments are (present, absent, or of any shape), and for
any other tool name it throws `Unknown tool: <name>` and never returns a
success result. -/
theorem callTool_self_empty_other_error :
    (∀ args : Option Json,
        handleCallTool "Self".data args = .ok ⟨[⟨"text".data, []⟩]⟩) ∧
    (∀ (name : Str) (args : Option Json), name ≠ "Self".data →
        handleCallTool name args = .error ("Unknown tool: ".data ++ name) ∧
        ∀ r, handleCallTool name args ≠ .ok r) := by
  constructor
  · intro args
    simp [handleCallTool]
  · intro name args h
    constructor
    · simp only [handleCallTool]
      rw [if_pos h]
    · intro r
      simp only [handleCallTool]
      rw [if_pos h]
      simp

theorem callTool_self_empty_other_error_witness :
    handleCallTool "Other".data (some Json.null) =
        .error ("Unknown tool: ".data ++ "Other".data) ∧
      ∀ r, handleCallTool "Other".data (some Json.null) ≠ .ok r :=
  callTool_self_empty_other_error.2 "Other".data (some Json.null) (by decide)

/-- C5. From the default set, `--all-required` followed by `--optional
prompt` is accepted and yields exactly the default list with `required`
set on every entry except `prompt`, whose `required` is cleared; no other
field of any entry changes and no override field is touched. -/
theorem allRequired_then_optional_prompt :
    parseArgs fsEmpty ["--all-required".data, "--optional".data, "prompt".data] =
      .ok ⟨DEFAULT_PARAMS.map (fun p =>
        if p.name = "prompt".data then { p with required := false }
        else { p with required := true }), none, none⟩ := by
  decide

theorem parseArgsFrom_ok_preserves (P : ParseSt → Prop) (fs : FS)
    (hsimple : ∀ st arg st', handleSimple st arg = .next st' → P st → P st')
    (hvalue : ∀ st arg next st',
      applyValueFlag fs st arg next = .ok st' → P st → P st') :
    ∀ (argv : List Str) (st st' : ParseSt),
      P st → parseArgsFrom fs st argv = .ok st' → P st' := by
  have main : ∀ (n : Nat) (argv : List Str), argv.length ≤ n →
      ∀ st st', P st → parseArgsFrom fs st argv = .ok st' → P st' := by
    intro n
    induction n with
    | zero =>
      intro argv hlen st st' hP h
      have hz : argv = [] := List.eq_nil_of_length_eq_zero (Nat.le_zero.mp hlen)
      subst hz
      simp only [parseArgsFrom] at h
      cases h
      exact hP
    | succ n ih =>
      intro argv hlen st st' hP h
      match argv with
      | [] =>
        simp only [parseArgsFrom] at h
        cases h
        exact hP
      | [arg] =>
        simp only [parseArgsFrom] at h
        cases hh : handleSimple st arg with
        | next st2 =>
          rw [hh] at h
          cases h
          exact hsimple st arg _ hh hP
        | exit c m =>
          rw [hh] at h
          simp at h
      | arg :: next :: rest =>
        simp only [parseArgsFrom] at h
        have hlen2 : rest.length ≤ n := by
          simp only [List.length_cons] at hlen
          omega
        have hlen3 : (next :: rest).length ≤ n := by
          simp only [List.length_cons] at hlen ⊢
          omega
        by_cases hc : next ≠ [] ∧ isValueFlag arg = true
        · rw [if_pos hc] at h
          cases hv : applyValueFlag fs st arg next with
          | ok st2 =>
            rw [hv] at h
            exact ih rest hlen2 st2 st' (hvalue st arg next st2 hv hP) h
          | error m =>
            rw [hv] at h
            simp at h
        · rw [if_neg hc] at h
          cases hs : handleSimple st arg with
          | next st2 =>
            rw [hs] at h
            exact ih (next :: rest) hlen3 st2 st' (hsimple st arg st2 hs hP) h
          | exit c m =>
            rw [hs] at h
            simp at h
  intro argv st st' hP h
  exact main argv.length argv le_rfl st st' hP h

theorem handleSimple_next_names (st : ParseSt) (arg : Str) (st' : ParseSt)
    (h : handleSimple st arg = .next st') :
    st'.params.map (fun p => p.name) = st.params.map (fun p => p.name) := by
  unfold handleSimple at h
  split_ifs at h <;> cases h <;> first
  | rfl
  | (rw [List.map_map]; exact rfl)

theorem handleSimple_next_desc (st : ParseSt) (arg : Str) (st' : ParseSt)
    (h : handleSimple st arg = .next st') :
    st'.customToolDescription = st.customToolDescription ∧
      st'.toolDescriptionSource = st.toolDescriptionSource := by
  unfold handleSimple at h
  split_ifs at h <;> cases h <;> exact ⟨rfl, rfl⟩

theorem setReqNames_ok_names (b : Bool) (flag : Str) (params : List ParamDef)
    (next : Str) (ps : List ParamDef)
    (h : setReqNames b flag params next = .ok ps) :
    ps.map (fun p => p.name) = params.map (fun p => p.name) := by
  unfold setReqNames at h
  dsimp only at h
  split_ifs at h
  · cases h
    rw [List.map_map]
    apply List.map_congr_left
    intro p _
    dsimp only [Function.comp]
    by_cases hc : (List.map jsTrim (jsSplit ',' next)).contains p.name = true
    · rw [if_pos hc]
    · rw [if_neg hc]

theorem parseAddParam_ok_fresh (params : List ParamDef) (spec : Str)
    (pd : ParamDef) (h : parseAddParam params spec = .ok pd) :
    (params.map (fun p => p.name)).contains pd.name = false := by
  rcases hp : jsSplit ':' spec with _ | ⟨p0, _ | ⟨p1, _ | ⟨p2, prest⟩⟩⟩ <;>
    simp only [parseAddParam, hp] at h
  · cases h
  · cases h
  · cases h
  · by_cases h0 : jsTrim p0 = []
    · rw [if_pos h0] at h
      cases h
    · rw [if_neg h0] at h
      cases hpt : ptypeOfName (jsToLower (jsTrim p1)) with
      | none =>
        rw [hpt] at h
        simp at h
      | some ty =>
        rw [hpt] at h
        dsimp only at h
        by_cases hdup : (params.map (fun p => p.name)).contains (jsTrim p0) = true
        · rw [if_pos hdup] at h
          simp at h
        · rw [if_neg hdup] at h
          split_ifs at h <;> cases h <;> simpa using hdup

theorem applyToolDescription_ok_params (st : ParseSt) (next : Str) (st' : ParseSt)
    (h : applyToolDescription st next = .ok st') : st'.params = st.params := by
  unfold applyToolDescription at h
  split at h
  · cases h
  · dsimp only at h
    split_ifs at h <;> cases h <;> rfl

theorem applyToolDescriptionFile_ok_params (fs : FS) (st : ParseSt) (next : Str)
    (st' : ParseSt) (h : applyToolDescriptionFile fs st next = .ok st') :
    st'.params = st.params := by
  unfold applyToolDescriptionFile at h
  split at h
  · cases h
  · split at h
    · cases h
    · dsimp only at h
      split_ifs at h <;> cases h <;> rfl

theorem applyValueFlag_ok_names_nodup (fs : FS) (st : ParseSt) (arg next : Str)
    (st' : ParseSt) (h : applyValueFlag fs st arg next = .ok st')
    (hP : (st.params.map (fun p => p.name)).Nodup) :
    (st'.params.map (fun p => p.name)).Nodup := by
  unfold applyValueFlag at h
  split_ifs at h
  · cases hsr : setReqNames true arg st.params next with
    | error m =>
      rw [hsr] at h
      simp [Except.map] at h
    | ok ps =>
      rw [hsr] at h
      simp only [Except.map] at h
      cases h
      rw [setReqNames_ok_names true arg st.params next ps hsr]
      exact hP
  · cases hsr : setReqNames false arg st.params next with
    | error m =>
      rw [hsr] at h
      simp [Except.map] at h
    | ok ps =>
      rw [hsr] at h
      simp only [Except.map] at h
      cases h
      rw [setReqNames_ok_names false arg st.params next ps hsr]
      exact hP
  · cases hap : parseAddParam st.params next with
    | error m =>
      rw [hap] at h
      simp [Except.map] at h
    | ok pd =>
      rw [hap] at h
      simp only [Except.map] at h
      cases h
      have fresh : pd.name ∉ st.params.map (fun p => p.name) := by
        simpa using parseAddParam_ok_fresh st.params next pd hap
      simp [List.nodup_append, hP, fresh]
  · rw [applyToolDescription_ok_params st next st' h]
    exact hP
  · rw [applyToolDescriptionFile_ok_params fs st next st' h]
    exact hP

theorem applyToolDescription_ok_desc (st : ParseSt) (next : Str) (st' : ParseSt)
    (h : applyToolDescription st next = .ok st') :
    ∃ d, st'.customToolDescription = some d ∧
      st'.toolDescriptionSource = some DescSource.inline := by
  unfold applyToolDescription at h
  split at h
  · cases h
  · dsimp only at h
    split_ifs at h <;> cases h <;> exact ⟨_, rfl, rfl⟩

theorem applyToolDescriptionFile_ok_desc (fs : FS) (st : ParseSt) (next : Str)
    (st' : ParseSt) (h : applyToolDescriptionFile fs st next = .ok st') :
    ∃ d, st'.customToolDescription = some d ∧
      st'.toolDescriptionSource = some DescSource.file := by
  unfold applyToolDescriptionFile at h
  split at h
  · cases h
  · split at h
    · cases h
    · dsimp only at h
      split_ifs at h <;> cases h <;> exact ⟨_, rfl, rfl⟩

theorem applyValueFlag_ok_desc_inv (fs : FS) (st : ParseSt) (arg next : Str)
    (st' : ParseSt) (h : applyValueFlag fs st arg next = .ok st')
    (hinv : st.customToolDescription = none ↔ st.toolDescriptionSource = none) :
    st'.customToolDescription = none ↔ st'.toolDescriptionSource = none := by
  unfold applyValueFlag at h
  split_ifs at h
  · cases hsr : setReqNames true arg st.params next with
    | error m =>
      rw [hsr] at h
      simp [Except.map] at h
    | ok ps =>
      rw [hsr] at h
      simp only [Except.map] at h
      cases h
      exact hinv
  · cases hsr : setReqNames false arg st.params next with
    | error m =>
      rw [hsr] at h
      simp [Except.map] at h
    | ok ps =>
      rw [hsr] at h
      simp only [Except.map] at h
      cases h
      exact hinv
  · cases hap : parseAddParam st.params next with
    | error m =>
      rw [hap] at h
      simp [Except.map] at h
    | ok pd =>
      rw [hap] at h
      simp only [Except.map] at h
      cases h
      exact hinv
  · obtain ⟨d, hd, hsrc⟩ := applyToolDescription_ok_desc st next st' h
    rw [hd, hsrc]
    simp
  · obtain ⟨d, hd, hsrc⟩ := applyToolDescriptionFile_ok_desc fs st next st' h
    rw [hd, hsrc]
    simp

/-- C7 (counterexample): an argv sequence containing the inline override
directive twice need not fail — when the second occurrence is consumed as
the value token of the first, the parse is accepted with the literal
directive text as the override description. -/
theorem toolDescription_twice_accepted :
    parseArgs fsEmpty ["--tool-description".data, "--tool-description".data] =
      .ok ⟨DEFAULT_PARAMS, some "--tool-description".data,
        some DescSource.inline⟩ := by
  decide

/-- C7 (amended): if an override directive (inline or file-based) is
reached in directive position with a truthy value token while the
override marker is already set — i.e. a second effective occurrence of
either directive — the parser exits with status 1; and in every accepted
parse the override text and the marker recording which directive set it
are populated together (so at most one variant's text is ever held). -/
theorem toolDescription_second_occurrence_fatal :
    (∀ (fs : FS) (st : ParseSt) (arg next : Str) (rest : List Str),
        st.toolDescriptionSource ≠ none →
        (arg = "--tool-description".data ∨ arg = "--tool-description-file".data) →
        next ≠ [] →
        ∃ msg, parseArgsFrom fs st (arg :: next :: rest) = .exit 1 msg) ∧
    (∀ (fs : FS) (argv : List Str) (st' : ParseSt),
        parseArgs fs argv = .ok st' →
        (st'.customToolDescription = none ↔ st'.toolDescriptionSource = none)) := by
  constructor
  · intro fs st arg next rest hsrc harg hnext
    obtain ⟨src, hs⟩ := Option.ne_none_iff_exists'.mp hsrc
    rcases harg with h | h <;> subst h
    · refine ⟨if src = DescSource.inline then
          "ERROR: --tool-description can only be used once".data
        else
          "ERROR: Cannot use both --tool-description and --tool-description-file".data,
        ?_⟩
      simp only [parseArgsFrom]
      rw [if_pos ⟨hnext, by decide⟩]
      simp only [applyValueFlag]
      rw [if_neg (by decide), if_neg (by decide), if_neg (by decide)]
      simp only [if_true]
      simp only [applyToolDescription, hs]
    · refine ⟨if src = DescSource.file then
          "ERROR: --tool-description-file can only be used once".data
        else
          "ERROR: Cannot use both --tool-description and --tool-description-file".data,
        ?_⟩
      simp only [parseArgsFrom]
      rw [if_pos ⟨hnext, by decide⟩]
      simp only [applyValueFlag]
      rw [if_neg (by decide), if_neg (by decide), if_neg (by decide),
        if_neg (by decide)]
      simp only [applyToolDescriptionFile, hs]
  · intro fs argv st' h
    exact parseArgsFrom_ok_preserves
      (fun st => st.customToolDescription = none ↔ st.toolDescriptionSource = none)
      fs
      (fun st arg st'' hstep hP => by
        obtain ⟨h1, h2⟩ := handleSimple_next_desc st arg st'' hstep
        dsimp only at hP ⊢
        rw [h1, h2]
        exact hP)
      (fun st arg next st'' hstep hP =>
        applyValueFlag_ok_desc_inv fs st arg next st'' hstep hP)
      argv initSt st' (by decide) h

theorem toolDescription_second_occurrence_fatal_witness :
    (∃ msg, parseArgsFrom fsEmpty
        ⟨DEFAULT_PARAMS, some "x".data, some DescSource.inline⟩
        ("--tool-description-file".data :: "f".data :: []) = .exit 1 msg) ∧
    ((⟨DEFAULT_PARAMS, some "t".data, some DescSource.inline⟩ :
        ParseSt).customToolDescription = none ↔
      (⟨DEFAULT_PARAMS, some "t".data, some DescSource.inline⟩ :
        ParseSt).toolDescriptionSource = none) :=
  ⟨toolDescription_second_occurrence_fatal.1 fsEmpty
      ⟨DEFAULT_PARAMS, some "x".data, some DescSource.inline⟩
      "--tool-description-file".data "f".data [] (by decide) (Or.inr rfl)
      (by decide),
   toolDescription_second_occurrence_fatal.2 fsEmpty
      ["--tool-description".data, "t".data]
      ⟨DEFAULT_PARAMS, some "t".data, some DescSource.inline⟩ (by decide)⟩

theorem parseAddParam_duplicate_name (params : List ParamDef) (spec : Str)
    (hdup : (params.map (fun p => p.name)).contains
      (jsTrim ((jsSplit ':' spec).getD 0 [])) = true) :
    ∃ msg, parseAddParam params spec = .error msg := by
  rcases hp : jsSplit ':' spec with _ | ⟨p0, _ | ⟨p1, _ | ⟨p2, prest⟩⟩⟩
  · exact ⟨msgInvalidFormat spec, by simp only [parseAddParam, hp]⟩
  · exact ⟨msgInvalidFormat spec, by simp only [parseAddParam, hp]⟩
  · exact ⟨msgInvalidFormat spec, by simp only [parseAddParam, hp]⟩
  · have hdup1 : (params.map (fun p => p.name)).contains (jsTrim p0) = true := by
      simpa [hp] using hdup
    by_cases h0 : jsTrim p0 = []
    · exact ⟨msgEmptyName spec, by
        simp only [parseAddParam, hp]
        rw [if_pos h0]⟩
    · cases hpt : ptypeOfName (jsToLower (jsTrim p1)) with
      | none =>
        exact ⟨msgInvalidType (jsTrim p1) spec, by
          simp only [parseAddParam, hp]
          rw [if_neg h0, hpt]⟩
      | some ty =>
        exact ⟨msgDuplicate (jsTrim p0), by
          simp only [parseAddParam, hp]
          rw [if_neg h0, hpt]
          dsimp only
          rw [if_pos hdup1]⟩

/-- C8. Parameter-name uniqueness is an invariant of the whole parsing
pass: the built-in default list has pairwise-distinct names, every step
of the token loop that returns a new state preserves distinctness of the
name list (the requiredness directives do not change names, and
`--add-param` only appends a name checked to be absent), and
`--add-param` with a name already present in the current set — built-in
defaults included — always fails with a diagnostic. -/
theorem paramNames_unique_invariant :
    (DEFAULT_PARAMS.map (fun p => p.name)).Nodup ∧
    (∀ (fs : FS) (st : ParseSt) (argv : List Str) (st' : ParseSt),
        (st.params.map (fun p => p.name)).Nodup →
        parseArgsFrom fs st argv = .ok st' →
        (st'.params.map (fun p => p.name)).Nodup) ∧
    (∀ (params : List ParamDef) (spec : Str),
        (params.map (fun p => p.name)).contains
          (jsTrim ((jsSplit ':' spec).getD 0 [])) = true →
        ∃ msg, parseAddParam params spec = .error msg) := by
  refine ⟨by decide, ?_, parseAddParam_duplicate_name⟩
  intro fs st argv st' hP h
  exact parseArgsFrom_ok_preserves
    (fun st => (st.params.map (fun p => p.name)).Nodup) fs
    (fun st arg st'' hstep hP => by
      dsimp only at hP ⊢
      rw [handleSimple_next_names st arg st'' hstep]
      exact hP)
    (fun st arg next st'' hstep hP =>
      applyValueFlag_ok_names_nodup fs st arg next st'' hstep hP)
    argv st st' hP h

theorem paramNames_unique_invariant_witness :
    (((⟨DEFAULT_PARAMS.map (fun p => { p with required := true }), none, none⟩ :
        ParseSt).params.map (fun p => p.name)).Nodup) ∧
    (∃ msg, parseAddParam DEFAULT_PARAMS "prompt:string:d".data = .error msg) :=
  ⟨paramNames_unique_invariant.2.1 fsEmpty initSt ["--all-required".data]
      ⟨DEFAULT_PARAMS.map (fun p => { p with required := true }), none, none⟩
      (by decide) (by decide),
   paramNames_unique_invariant.2.2 DEFAULT_PARAMS "prompt:string:d".data
      (by decide)⟩

/-- C6. For every parameter of the frozen list, the schema builder emits
its descriptor into the properties map, and that descriptor omits the
type tag exactly when the parameter's kind is "any" (the any-json-value
encoding); for the other three kinds the tag carries the kind's name;
`minimum` / `maximum` are populated only for "number" entries that set
them, and `items` only for "array" entries that set it. -/
theorem schema_kind_tag_rules (params : List ParamDef) (p : ParamDef)
    (hp : p ∈ params) :
    (p.name, mkPropDef p) ∈ (buildToolSchema params).properties ∧
    ((mkPropDef p).type = none ↔ p.type = PType.any) ∧
    (p.type ≠ PType.any → (mkPropDef p).type = some (typeName p.type)) ∧
    ((mkPropDef p).minimum ≠ none → p.type = PType.number ∧ p.minimum ≠ none) ∧
    (p.type = PType.number →
      (mkPropDef p).minimum = p.minimum ∧ (mkPropDef p).maximum = p.maximum) ∧
    ((mkPropDef p).maximum ≠ none → p.type = PType.number ∧ p.maximum ≠ none) ∧
    ((mkPropDef p).items ≠ none → p.type = PType.array ∧ p.items ≠ none) ∧
    (p.type = PType.array → (mkPropDef p).items = p.items) := by
  refine ⟨List.mem_map_of_mem _ hp, ?_, ?_, ?_, ?_, ?_, ?_, ?_⟩ <;>
    cases hpt : p.type <;> simp [mkPropDef, hpt, typeName]

theorem schema_kind_tag_rules_witness :
    (("temperature".data,
        mkPropDef ⟨"temperature".data, PType.number, "Cognitive temperature".data,
          some 0, some 2, none, false⟩) ∈
      (buildToolSchema DEFAULT_PARAMS).properties) ∧
    ((mkPropDef ⟨"temperature".data, PType.number, "Cognitive temperature".data,
        some 0, some 2, none, false⟩).type = none ↔
      (⟨"temperature".data, PType.number, "Cognitive temperature".data,
        some 0, some 2, none, false⟩ : ParamDef).type = PType.any) :=
  ⟨(schema_kind_tag_rules DEFAULT_PARAMS
      ⟨"temperature".data, PType.number, "Cognitive temperature".data,
        some 0, some 2, none, false⟩ (by decide)).1,
   (schema_kind_tag_rules DEFAULT_PARAMS
      ⟨"temperature".data, PType.number, "Cognitive temperature".data,
        some 0, some 2, none, false⟩ (by decide)).2.1⟩

theorem head_ne_of_not_dash (tok lit : Str) (h : isDashArg tok = false)
    (hlit : isDashArg lit = true) : tok ≠ lit := by
  intro he
  subst he
  rw [h] at hlit
  exact Bool.false_ne_true hlit

theorem handleSimple_skip (st : ParseSt) (tok : Str)
    (h : isDashArg tok = false) : handleSimple st tok = .next st := by
  have h1 := head_ne_of_not_dash tok "--all-required".data h (by decide)
  have h2 := head_ne_of_not_dash tok "--all-optional".data h (by decide)
  have h3 := head_ne_of_not_dash tok "--help".data h (by decide)
  have h4 := head_ne_of_not_dash tok "-h".data h (by decide)
  simp [handleSimple, h1, h2, h3, h4, h]

theorem not_dash_not_valueFlag (tok : Str) (h : isDashArg tok = false) :
    isValueFlag tok = false := by
  have h1 := head_ne_of_not_dash tok "--required".data h (by decide)
  have h2 := head_ne_of_not_dash tok "--optional".data h (by decide)
  have h3 := head_ne_of_not_dash tok "--add-param".data h (by decide)
  have h4 := head_ne_of_not_dash tok "--tool-description".data h (by decide)
  have h5 := head_ne_of_not_dash tok "--tool-description-file".data h (by decide)
  simp only [isValueFlag]
  rw [decide_eq_false_iff_not]
  rintro (hh | hh | hh | hh | hh)
  · exact h1 hh
  · exact h2 hh
  · exact h3 hh
  · exact h4 hh
  · exact h5 hh

/-- C9. A token that does not start with a dash, reached in directive
position (so not consumed as a preceding directive's value), is skipped
silently: the parse of the remaining tokens continues from the very same
state, as if the token were absent — parameters and both override fields
untouched, no diagnostic, no exit. -/
theorem nonDash_token_skipped (fs : FS) (st : ParseSt) (tok : Str)
    (rest : List Str) (h : isDashArg tok = false) :
    parseArgsFrom fs st (tok :: rest) = parseArgsFrom fs st rest := by
  have hv := not_dash_not_valueFlag tok h
  have hs := handleSimple_skip st tok h
  cases rest with
  | nil =>
    simp only [parseArgsFrom]
    rw [hs]
  | cons next rest2 =>
    simp only [parseArgsFrom]
    rw [if_neg (by simp [hv]), hs]

theorem nonDash_token_skipped_witness :
    parseArgsFrom fsEmpty initSt ["hello".data, "--all-required".data] =
      parseArgsFrom fsEmpty initSt ["--all-required".data] :=
  nonDash_token_skipped fsEmpty initSt "hello".data ["--all-required".data]
    (by decide)

theorem handleSimple_dash_unknown (st : ParseSt) (arg : Str)
    (hd : isDashArg arg = true)
    (h1 : arg ≠ "--all-required".data) (h2 : arg ≠ "--all-optional".data)
    (h3 : arg ≠ "--help".data) (h4 : arg ≠ "-h".data) :
    handleSimple st arg = .exit 1 (msgUnknownArgument arg) := by
  simp [handleSimple, h1, h2, h3, h4, hd]

/-- C10. A value-consuming directive appearing as the last argv token, or
followed by an empty-string token (falsy in the source's `args[i + 1]`
guard), is not applied: the token falls through to the unrecognized-flag
branch and the parser exits with status 1 and the "Unknown argument"
diagnostic naming the directive. -/
theorem valueFlag_missing_value_fatal (fs : FS) (st : ParseSt) (arg : Str)
    (rest : List Str) (h : isValueFlag arg = true) :
    parseArgsFrom fs st [arg] = .exit 1 (msgUnknownArgument arg) ∧
    parseArgsFrom fs st (arg :: [] :: rest) =
      .exit 1 (msgUnknownArgument arg) := by
  have h5 : arg = "--required".data ∨ arg = "--optional".data ∨
      arg = "--add-param".data ∨ arg = "--tool-description".data ∨
      arg = "--tool-description-file".data := by
    simpa [isValueFlag] using h
  have hd : isDashArg arg = true := by
    rcases h5 with h' | h' | h' | h' | h' <;> subst h' <;> decide
  have h1 : arg ≠ "--all-required".data := by
    rcases h5 with h' | h' | h' | h' | h' <;> subst h' <;> decide
  have h2 : arg ≠ "--all-optional".data := by
    rcases h5 with h' | h' | h' | h' | h' <;> subst h' <;> decide
  have h3 : arg ≠ "--help".data := by
    rcases h5 with h' | h' | h' | h' | h' <;> subst h' <;> decide
  have h4 : arg ≠ "-h".data := by
    rcases h5 with h' | h' | h' | h' | h' <;> subst h' <;> decide
  have hstep := handleSimple_dash_unknown st arg hd h1 h2 h3 h4
  constructor
  · simp only [parseArgsFrom]
    rw [hstep]
  · simp only [parseArgsFrom]
    rw [if_neg (by simp), hstep]

theorem valueFlag_missing_value_fatal_witness :
    parseArgsFrom fsEmpty initSt ["--optional".data] =
        .exit 1 (msgUnknownArgument "--optional".data) ∧
      parseArgsFrom fsEmpty initSt ["--optional".data, [], "x".data] =
        .exit 1 (msgUnknownArgument "--optional".data) :=
  valueFlag_missing_value_fatal fsEmpty initSt "--optional".data ["x".data]
    (by decide)
